import Mathlib

/-!
Verification of the record-query pagination, grouping and error-categorization
layer of the Mathesar record API, as implemented in mathesar/api/pagination.py
and mathesar/api/db/viewsets/records.py, over a shallow embedding in Lean.
Collaborator operations that live outside those files (the count query, the
windowed record retrieval, the grouping engine, the framework's limit/offset
parsing and the column-id rewriting pass) are modelled from the specification
and are marked as such in their doc comments.
-/

namespace MathesarSpec

/-- Keep the first occurrence of every element of a list, dropping all the later
duplicates. Models first-appearance deduplication (distinct grouping keys and
the deduplicate stage of the compiled query). -/
def dedupFirst {α : Type} [DecidableEq α] : List α → List α
  | [] => []
  | a :: l => a :: dedupFirst (l.filter (fun b => b ≠ a))
termination_by l => l.length
decreasing_by
  simp only [List.length_cons]
  exact Nat.lt_succ_of_le (List.length_filter_le _ _)

theorem mem_dedupFirst {α : Type} [DecidableEq α] (l : List α) (b : α) :
    b ∈ dedupFirst l ↔ b ∈ l := by
  induction l using dedupFirst.induct with
  | case1 => simp [dedupFirst]
  | case2 a l ih =>
    rw [dedupFirst]
    by_cases hba : b = a
    · subst hba; simp
    · simp only [List.mem_cons, ih, List.mem_filter]
      constructor
      · rintro (rfl | h)
        · exact Or.inl rfl
        · exact Or.inr h.1
      · rintro (rfl | h)
        · exact Or.inl rfl
        · exact Or.inr ⟨h, by simp [hba]⟩

theorem nodup_dedupFirst {α : Type} [DecidableEq α] (l : List α) :
    (dedupFirst l).Nodup := by
  induction l using dedupFirst.induct with
  | case1 => simp [dedupFirst]
  | case2 a l ih =>
    rw [dedupFirst]
    refine List.nodup_cons.mpr ⟨?_, ih⟩
    intro hmem
    have h1 := (mem_dedupFirst _ a).mp hmem
    have h2 := (List.mem_filter.mp h1).2
    simp at h2

/-- Index of the first occurrence of an element in a list (the list's length
when the element is absent). -/
def firstIdx {α : Type} [DecidableEq α] (k : α) : List α → Nat
  | [] => 0
  | a :: l => if a = k then 0 else firstIdx k l + 1

theorem firstIdx_lt_length {α : Type} [DecidableEq α] {k : α} {l : List α}
    (h : k ∈ l) : firstIdx k l < l.length := by
  induction l with
  | nil => cases h
  | cons a l ih =>
    by_cases hak : a = k
    · simp [firstIdx, hak]
    · rcases List.mem_cons.mp h with h1 | h1
      · exact absurd h1.symm hak
      · simp only [firstIdx, if_neg hak, List.length_cons]
        exact Nat.succ_lt_succ (ih h1)

theorem getD_firstIdx {α : Type} [DecidableEq α] {k : α} {l : List α}
    (h : k ∈ l) (d : α) : l.getD (firstIdx k l) d = k := by
  induction l with
  | nil => cases h
  | cons a l ih =>
    by_cases hak : a = k
    · simp [firstIdx, hak]
    · rcases List.mem_cons.mp h with h1 | h1
      · exact absurd h1.symm hak
      · simp only [firstIdx, if_neg hak]
        simpa using ih h1

theorem firstIdx_le {α : Type} [DecidableEq α] {k d : α} {l : List α} {i : Nat}
    (hi : i < l.length) (h : l.getD i d = k) : firstIdx k l ≤ i := by
  induction l generalizing i with
  | nil => simp at hi
  | cons a l ih =>
    by_cases hak : a = k
    · simp [firstIdx, hak]
    · cases i with
      | zero =>
        simp only [List.getD_cons_zero] at h
        exact absurd h hak
      | succ n =>
        simp only [firstIdx, if_neg hak]
        exact Nat.succ_le_succ (ih (Nat.lt_of_succ_lt_succ hi) (by simpa using h))

theorem firstIdx_lt_of_filter {α : Type} [DecidableEq α] (p : α → Bool)
    (l : List α) {k1 k2 : α} (h1 : k1 ∈ l.filter p) (h2 : k2 ∈ l.filter p)
    (hlt : firstIdx k1 (l.filter p) < firstIdx k2 (l.filter p)) :
    firstIdx k1 l < firstIdx k2 l := by
  induction l with
  | nil => simp at h1
  | cons a l ih =>
    by_cases hpa : p a
    · rw [List.filter_cons_of_pos hpa] at h1 h2 hlt
      by_cases h1a : a = k1
      · have h2a : a ≠ k2 := by
          intro h2a
          rw [firstIdx, if_pos h1a, firstIdx, if_pos h2a] at hlt
          exact Nat.lt_irrefl 0 hlt
        have hk2 : k2 ∈ l.filter p := by
          rcases List.mem_cons.mp h2 with h | h
          · exact absurd h.symm h2a
          · exact h
        rw [firstIdx, if_pos h1a]
        rw [firstIdx, if_neg h2a]
        exact Nat.succ_pos _
      · have h2a : a ≠ k2 := by
          intro h2a
          rw [firstIdx, if_neg h1a, firstIdx, if_pos h2a] at hlt
          exact absurd hlt (Nat.not_lt_zero _)
        have hk1 : k1 ∈ l.filter p := by
          rcases List.mem_cons.mp h1 with h | h
          · exact absurd h.symm h1a
          · exact h
        have hk2 : k2 ∈ l.filter p := by
          rcases List.mem_cons.mp h2 with h | h
          · exact absurd h.symm h2a
          · exact h
        rw [firstIdx, if_neg h1a, firstIdx, if_neg h2a] at hlt
        rw [firstIdx, if_neg h1a, firstIdx, if_neg h2a]
        exact Nat.succ_lt_succ (ih hk1 hk2 (Nat.lt_of_succ_lt_succ hlt))
    · rw [List.filter_cons_of_neg hpa] at h1 h2 hlt
      have h1a : a ≠ k1 := by
        intro h
        subst h
        exact hpa (List.of_mem_filter h1)
      have h2a : a ≠ k2 := by
        intro h
        subst h
        exact hpa (List.of_mem_filter h2)
      rw [firstIdx, if_neg h1a, firstIdx, if_neg h2a]
      exact Nat.succ_lt_succ (ih h1 h2 hlt)

theorem pairwise_firstIdx_dedupFirst {α : Type} [DecidableEq α] (l : List α) :
    (dedupFirst l).Pairwise (fun k1 k2 => firstIdx k1 l < firstIdx k2 l) := by
  induction l using dedupFirst.induct with
  | case1 => simp [dedupFirst]
  | case2 a l ih =>
    rw [dedupFirst]
    refine List.Pairwise.cons ?_ ?_
    · intro k2 hk2
      have hk2f := (mem_dedupFirst _ _).mp hk2
      have hk2a : a ≠ k2 := by
        have h := (List.mem_filter.mp hk2f).2
        simp at h
        exact fun he => h he.symm
      rw [firstIdx, if_pos rfl, firstIdx, if_neg hk2a]
      exact Nat.succ_pos _
    · refine ih.imp_of_mem ?_
      intro k1 k2 hk1 hk2 hlt
      have hk1f := (mem_dedupFirst _ _).mp hk1
      have hk2f := (mem_dedupFirst _ _).mp hk2
      have h := firstIdx_lt_of_filter _ l hk1f hk2f hlt
      have h1a : a ≠ k1 := by
        have hp := (List.mem_filter.mp hk1f).2
        simp at hp
        exact fun he => hp he.symm
      have h2a : a ≠ k2 := by
        have hp := (List.mem_filter.mp hk2f).2
        simp at hp
        exact fun he => hp he.symm
      rw [firstIdx, if_neg h1a, firstIdx, if_neg h2a]
      exact Nat.succ_lt_succ h

theorem countP_eq_one_of_nodup {α : Type} [DecidableEq α] {l : List α}
    (hn : l.Nodup) {a : α} (ha : a ∈ l) :
    l.countP (fun k => a = k) = 1 := by
  induction l with
  | nil => cases ha
  | cons b t ih =>
    rw [List.countP_cons]
    rcases List.mem_cons.mp ha with rfl | h
    · have hb : a ∉ t := (List.nodup_cons.mp hn).1
      have hz : t.countP (fun k => a = k) = 0 := by
        refine List.countP_eq_zero.mpr ?_
        intro k hk hak
        simp only [decide_eq_true_eq] at hak
        exact hb (hak ▸ hk)
      simp [hz]
    · have hne : a ≠ b := by
        intro he
        exact (List.nodup_cons.mp hn).1 (he ▸ h)
      have h1 : t.countP (fun k => a = k) = 1 := ih (List.nodup_cons.mp hn).2 h
      simp [h1, hne]

/-- A row of a table: the sequence of its column values, in column order. -/
abbrev Row := List String

/-- A compiled filter or function predicate over rows. -/
abbrev Pred := Row → Bool

/-- The value tuple of a row on a sequence of column positions, as used by
grouping and by the duplicate-only restriction. -/
def tupleOn (cols : List Nat) (r : Row) : List String :=
  cols.map (fun i => r.getD i "")

/-- The per-row grouping keys of a window: each row's value tuple on the
grouped columns. -/
def keysOf (cols : List Nat) (rows : List Row) : List (List String) :=
  rows.map (tupleOn cols)

/-- The ascending page positions whose key equals a given grouping key. -/
def groupIndices (ks : List (List String)) (k : List String) : List Nat :=
  (List.range ks.length).filter (fun i => ks.getD i [] = k)

theorem mem_groupIndices {ks : List (List String)} {k : List String} {i : Nat} :
    i ∈ groupIndices ks k ↔ i < ks.length ∧ ks.getD i [] = k := by
  simp [groupIndices, List.mem_filter, List.mem_range]

theorem pairwise_lt_groupIndices (ks : List (List String)) (k : List String) :
    (groupIndices ks k).Pairwise (· < ·) :=
  (List.pairwise_lt_range _).filter _

theorem headD_mem_of_ne_nil {l : List Nat} (h : l ≠ []) (d : Nat) :
    l.headD d ∈ l := by
  cases l with
  | nil => exact absurd rfl h
  | cons a t => simp

theorem headD_le_of_mem {l : List Nat} (hp : l.Pairwise (· < ·)) {i : Nat}
    (hi : i ∈ l) (d : Nat) : l.headD d ≤ i := by
  cases l with
  | nil => cases hi
  | cons a t =>
    rcases List.mem_cons.mp hi with rfl | h
    · simp
    · have := (List.pairwise_cons.mp hp).1 i h
      simp only [List.headD_cons]
      omega

theorem headD_groupIndices {ks : List (List String)} {k : List String}
    (h : k ∈ ks) : (groupIndices ks k).headD 0 = firstIdx k ks := by
  have hfi_mem : firstIdx k ks ∈ groupIndices ks k :=
    mem_groupIndices.mpr ⟨firstIdx_lt_length h, getD_firstIdx h []⟩
  have hne : groupIndices ks k ≠ [] := List.ne_nil_of_mem hfi_mem
  have h1 : (groupIndices ks k).headD 0 ≤ firstIdx k ks :=
    headD_le_of_mem (pairwise_lt_groupIndices ks k) hfi_mem 0
  obtain ⟨hlt, hgd⟩ := mem_groupIndices.mp (headD_mem_of_ne_nil hne 0)
  have h2 : firstIdx k ks ≤ (groupIndices ks k).headD 0 := firstIdx_le hlt hgd
  omega

/-- Group metadata reported for one group of a page: member count, the value
tuples of its first and last member, and the ascending page positions of its
members. -/
structure GroupResult where
  count : Nat
  first_value : List String
  last_value : List String
  result_indices : List Nat
deriving DecidableEq

/-- Modelled from the spec: the distinct mode of the Grouping Engine
(db/records/operations/group.py, which is not part of this repository, §4.3):
one group per distinct value tuple of the window rows on the grouped columns,
emitted in the order each tuple first appears, each carrying the ascending page
positions of the rows sharing that tuple. -/
def distinctGroups (cols : List Nat) (rows : List Row) : List GroupResult :=
  (dedupFirst (keysOf cols rows)).map (fun k =>
    ⟨(groupIndices (keysOf cols rows) k).length, k, k,
      groupIndices (keysOf cols rows) k⟩)

theorem length_keysOf (cols : List Nat) (rows : List Row) :
    (keysOf cols rows).length = rows.length := by
  simp [keysOf]

theorem getD_keysOf {cols : List Nat} {rows : List Row} {i : Nat}
    (h : i < rows.length) :
    (keysOf cols rows).getD i [] = tupleOn cols (rows.getD i []) := by
  have h2 : i < (keysOf cols rows).length := by
    rw [length_keysOf]; exact h
  rw [List.getD_eq_getElem _ _ h2, List.getD_eq_getElem _ _ h]
  simp [keysOf]

/-- Insert an element into a list sorted by a boolean comparison, keeping it
stable. -/
def orderedInsert {α : Type} (le : α → α → Bool) (a : α) : List α → List α
  | [] => [a]
  | b :: t => if le a b then a :: b :: t else b :: orderedInsert le a t

/-- Stable insertion sort by a boolean comparison; models the ORDER BY stage of
the compiled query. -/
def sortBy {α : Type} (le : α → α → Bool) : List α → List α
  | [] => []
  | a :: t => orderedInsert le a (sortBy le t)

/-- Lexicographic order on value tuples, used to rank distinct tuples in
percentile grouping. -/
def lexLeStr : List String → List String → Bool
  | [], _ => true
  | _ :: _, [] => false
  | a :: l1, b :: l2 => if a = b then lexLeStr l1 l2 else decide (a < b)

/-- The grouping mode of a GroupBy directive. -/
inductive GroupMode where
  | distinct
  | percentile
deriving DecidableEq

/-- The GroupBy directive that TableLimitOffsetGroupPagination builds from the
grouping request parameter (db/records/operations/group.py GroupBy, fields per
the spec data model §3). -/
structure GroupBy where
  columns : List Nat
  mode : GroupMode
  num_groups : Option Nat
deriving DecidableEq

/-- ranged is true exactly for percentile mode (§4.3). -/
def GroupBy.ranged (gb : GroupBy) : Bool :=
  gb.mode = GroupMode.percentile

/-- Modelled from the spec: the percentile mode of the Grouping Engine (§4.3):
sort the distinct value tuples of the window, split their rank range into
num_groups buckets, assign every row to the bucket holding its tuple's rank,
and emit the non-empty buckets in rank order with their tuple ranges. -/
def percentileGroups (cols : List Nat) (numGroups : Nat) (rows : List Row) :
    List GroupResult :=
  let ks := keysOf cols rows
  let sorted := sortBy lexLeStr (dedupFirst ks)
  let bucketOf : List String → Nat := fun k =>
    firstIdx k sorted * numGroups / sorted.length
  (List.range numGroups).filterMap (fun b =>
    let idxs := (List.range rows.length).filter
      (fun i => bucketOf (ks.getD i []) = b)
    if idxs.isEmpty then none
    else
      let vals := sorted.filter (fun k => bucketOf k = b)
      some ⟨idxs.length, vals.headD [], vals.getLastD [], idxs⟩)

/-- Modelled from the spec: the Grouping Engine dispatch over the two grouping
modes (§4.3); the engine consumes only the row sequence it is handed. A missing
num_groups falls back to the engine default of 5. -/
def groupEngine (gb : GroupBy) (records : List Row) : List GroupResult :=
  match gb.mode with
  | GroupMode.distinct => distinctGroups gb.columns records
  | GroupMode.percentile =>
      percentileGroups gb.columns (gb.num_groups.getD 5) records

/-- Modelled from the spec: process_annotated_records (mathesar/api/utils.py,
which is not part of this repository): returns the window rows unchanged
together with the group results carried by their grouping annotations, the
latter absent when no grouping was requested. -/
def process_annotated_records (gb : Option GroupBy) (records : List Row) :
    List Row × Option (List GroupResult) :=
  (records, gb.map (fun g => groupEngine g records))

/-- A table descriptor: the backing rows, in storage order. -/
structure MTable where
  rows : List Row

/-- default_limit of DefaultLimitOffsetPagination (pagination.py line 11). -/
def default_limit : Int := 50

/-- max_limit of DefaultLimitOffsetPagination (pagination.py line 12). -/
def max_limit : Int := 500

/-- Modelled from the spec: the limit parsing of the framework pagination base
class that DefaultLimitOffsetPagination extends (not part of this repository):
an absent parameter (none), a non-numeric one (some none) or a non-positive one
yields no limit, so the caller falls back to the default; a positive one is
capped at max_limit. -/
def get_limit : Option (Option Int) → Option Int
  | none => none
  | some none => none
  | some (some n) => if n ≤ 0 then none else some (min n max_limit)

/-- Modelled from the spec: the offset parsing of the framework pagination base
class (not part of this repository): an absent, non-numeric or negative
parameter yields 0. -/
def get_offset : Option (Option Int) → Int
  | none => 0
  | some none => 0
  | some (some n) => if n < 0 then 0 else n

/-- Apply an optional filter or function predicate to a row sequence. -/
def applyPred : Option Pred → List Row → List Row
  | none, rows => rows
  | some p, rows => rows.filter p

/-- Modelled from the spec: the filtered, function-transformed and optionally
deduplicated result set of the compiled query (§4.2), with no window applied. -/
def baseResultSet (t : MTable) (filter db_function : Option Pred)
    (deduplicate : Bool) : List Row :=
  let fs := applyPred db_function (applyPred filter t.rows)
  if deduplicate then dedupFirst fs else fs

/-- Modelled from the spec: Table.sa_num_records (mathesar/models.py, not part
of this repository) — the independent count query of §4.2, reflecting filter,
function and deduplicate and never the window. -/
def sa_num_records (t : MTable) (filter db_function : Option Pred)
    (deduplicate : Bool) : Nat :=
  (baseResultSet t filter db_function deduplicate).length

/-- Modelled from the spec: the duplicate-only restriction of §4.2 — keep only
rows whose value tuple on the given columns occurs more than once in the result
set. -/
def applyDuplicateOnly : Option (List Nat) → List Row → List Row
  | none, rows => rows
  | some cols, rows =>
      rows.filter (fun r =>
        2 ≤ rows.countP (fun s => tupleOn cols s = tupleOn cols r))

/-- The full ordered, restricted result sequence of a record query: every row
retrievable across all limit/offset windows. -/
def retrievableRows (t : MTable) (filter : Option Pred)
    (order_by : Row → Row → Bool) (duplicate_only : Option (List Nat))
    (db_function : Option Pred) (deduplicate : Bool) : List Row :=
  applyDuplicateOnly duplicate_only
    (sortBy order_by (baseResultSet t filter db_function deduplicate))

/-- Modelled from the spec: Table.get_records (mathesar/models.py, not part of
this repository) — the windowed row sequence of the compiled query of §4.2:
filter and function, dedupe, order and the duplicate-only restriction are
applied first, then offset and limit window the result. The group_by directive
only adds annotations and does not change which rows are returned. -/
def get_records (t : MTable) (limit offset : Nat) (filter : Option Pred)
    (order_by : Row → Row → Bool) (group_by : Option GroupBy)
    (duplicate_only : Option (List Nat)) (db_function : Option Pred)
    (deduplicate : Bool) : List Row :=
  ((retrievableRows t filter order_by duplicate_only db_function
      deduplicate).drop offset).take limit

/-- The pagination state fields the paginator assigns before responding. -/
structure PaginationState where
  limit : Int
  offset : Int
  count : Nat
deriving DecidableEq

/-- Embedding of TableLimitOffsetPagination.paginate_queryset (pagination.py
lines 36-70): parse the limit (falling back to default_limit when absent or
invalid) and the offset, compute count through the independent count query with
filter, db_function and deduplicate only, and return the windowed records. -/
def TableLimitOffsetPagination_paginate_queryset (t : MTable)
    (limitParam offsetParam : Option (Option Int)) (filter : Option Pred)
    (order_by : Row → Row → Bool) (group_by : Option GroupBy)
    (duplicate_only : Option (List Nat)) (db_function : Option Pred)
    (deduplicate : Bool) : PaginationState × List Row :=
  let limit := (get_limit limitParam).getD default_limit
  let offset := get_offset offsetParam
  let count := sa_num_records t filter db_function deduplicate
  (⟨limit, offset, count⟩,
    get_records t limit.toNat offset.toNat filter order_by group_by
      duplicate_only db_function deduplicate)

/-- The windowed row sequence a paginate call retrieves, named for reuse in
statements. -/
def windowOf (t : MTable) (limitParam offsetParam : Option (Option Int))
    (filter : Option Pred) (order_by : Row → Row → Bool)
    (group_by : Option GroupBy) (duplicate_only : Option (List Nat))
    (db_function : Option Pred) (deduplicate : Bool) : List Row :=
  (TableLimitOffsetPagination_paginate_queryset t limitParam offsetParam filter
    order_by group_by duplicate_only db_function deduplicate).2

/-- The grouping metadata dict the group paginator assigns (pagination.py lines
112-121). -/
structure GroupingMeta where
  columns : List Nat
  mode : GroupMode
  num_groups : Option Nat
  ranged : Bool
  groups : Option (List GroupResult)
deriving DecidableEq

/-- The full outcome of a group-paginated request: pagination state, grouping
metadata, the processed records handed back, and (as bookkeeping for the
invocation condition) the argument passed to process_annotated_records, absent
when the post-processing branch was skipped. -/
structure GroupPageResult where
  state : PaginationState
  grouping : Option GroupingMeta
  records : Option (List Row)
  engine_input : Option (List Row)

/-- Embedding of TableLimitOffsetGroupPagination.paginate_queryset
(pagination.py lines 81-123): build the GroupBy directive when a grouping was
requested, delegate to the superclass paginate, post-process the records only
when some were returned, and assemble the grouping metadata exactly when a
GroupBy directive exists. -/
def TableLimitOffsetGroupPagination_paginate_queryset (t : MTable)
    (limitParam offsetParam : Option (Option Int)) (filter : Option Pred)
    (order_by : Row → Row → Bool) (grouping : Option GroupBy)
    (duplicate_only : Option (List Nat)) (db_function : Option Pred)
    (deduplicate : Bool) : GroupPageResult :=
  let group_by := grouping
  let sr := TableLimitOffsetPagination_paginate_queryset t limitParam
    offsetParam filter order_by group_by duplicate_only db_function deduplicate
  let records := sr.2
  let processed_records : Option (List Row) :=
    if records.isEmpty then none
    else some (process_annotated_records group_by records).1
  let groups : Option (List GroupResult) :=
    if records.isEmpty then none
    else (process_annotated_records group_by records).2
  let engine_input : Option (List Row) :=
    if records.isEmpty then none else some records
  let groupingMeta : Option GroupingMeta :=
    match group_by with
    | some gb => some ⟨gb.columns, gb.mode, gb.num_groups, gb.ranged, groups⟩
    | none => none
  ⟨sr.1, groupingMeta, processed_records, engine_input⟩

/-- The specification-validation exception classes caught by
RecordViewSet.list (records.py lines 57-74). -/
inductive SpecError where
  | badDBFunctionFormat
  | unknownDBFunctionID
  | referencedColumnsDontExist
  | badSortFormat
  | sortFieldNotFound
  | badGroupFormat
  | groupFieldNotFound
  | invalidGroupType
deriving DecidableEq

/-- A categorized API error: the parameter tag it carries and its HTTP
status. -/
structure APIError where
  field : String
  status : Nat
deriving DecidableEq

/-- Embedding of the exception dispatch of RecordViewSet.list (records.py
lines 57-74): the three filter-family exceptions are re-raised as one
bad-filter API error with field "filters", the two sort-family ones with field
"order_by", and the three grouping-family ones with field "grouping", each
with HTTP status 400. -/
def categorize_list_error : SpecError → APIError
  | SpecError.badDBFunctionFormat => ⟨"filters", 400⟩
  | SpecError.unknownDBFunctionID => ⟨"filters", 400⟩
  | SpecError.referencedColumnsDontExist => ⟨"filters", 400⟩
  | SpecError.badSortFormat => ⟨"order_by", 400⟩
  | SpecError.sortFieldNotFound => ⟨"order_by", 400⟩
  | SpecError.badGroupFormat => ⟨"grouping", 400⟩
  | SpecError.groupFieldNotFound => ⟨"grouping", 400⟩
  | SpecError.invalidGroupType => ⟨"grouping", 400⟩

/-- Embedding of RecordViewSet.list around its rewrite-and-paginate body: the
pipeline either yields the page or raises one validation exception, which the
handler surfaces as exactly one categorized API error. -/
def record_list (outcome : Except SpecError GroupPageResult) :
    Except APIError GroupPageResult :=
  match outcome with
  | Except.ok page => Except.ok page
  | Except.error e => Except.error (categorize_list_error e)

/-- A node of the recursive DB function specification language: literal,
column reference by external id, column reference by resolved name, or an
operator call over ordered arguments (spec data model §3). -/
inductive DBFunc where
  | literal (v : String)
  | columnId (id : Nat)
  | columnName (name : String)
  | call (op : String) (args : List DBFunc)

mutual

/-- Modelled from the spec: rewrite_db_function_spec_column_ids_to_names
(mathesar/functions/operations/convert.py, not part of this repository, §4.1):
produce a structurally identical tree with every column-id reference replaced
by the mapped column name; fail with the offending identifier when the mapping
lacks it; leave every other node unchanged. -/
def rewriteSpec (m : List (Nat × String)) : DBFunc → Except (List Nat) DBFunc
  | DBFunc.literal v => Except.ok (DBFunc.literal v)
  | DBFunc.columnId i =>
      match m.find? (fun p => p.1 = i) with
      | some p => Except.ok (DBFunc.columnName p.2)
      | none => Except.error [i]
  | DBFunc.columnName n => Except.ok (DBFunc.columnName n)
  | DBFunc.call op args =>
      match rewriteSpecArgs m args with
      | Except.ok newArgs => Except.ok (DBFunc.call op newArgs)
      | Except.error e => Except.error e

/-- Rewriting of an argument list, left to right. -/
def rewriteSpecArgs (m : List (Nat × String)) :
    List DBFunc → Except (List Nat) (List DBFunc)
  | [] => Except.ok []
  | a :: rest =>
      match rewriteSpec m a with
      | Except.ok a2 =>
          match rewriteSpecArgs m rest with
          | Except.ok r2 => Except.ok (a2 :: r2)
          | Except.error e => Except.error e
      | Except.error e => Except.error e

end

/-- The outcome of _rewrite_db_function_specs: the two processed
specifications and whether the column-id-to-name mapping was looked up. -/
structure RewriteOut where
  filter_processed : Option DBFunc
  db_function_processed : Option DBFunc
  mapping_lookup_performed : Bool

/-- Embedding of _rewrite_db_function_specs (records.py lines 117-141): both
processed specs start absent; the column-id-to-name mapping is looked up only
when at least one unprocessed spec is supplied, and each supplied spec is then
rewritten against that one mapping. -/
def rewrite_db_function_specs (m : List (Nat × String))
    (filter_unprocessed db_function_unprocessed : Option DBFunc) :
    Except (List Nat) RewriteOut :=
  if filter_unprocessed.isSome || db_function_unprocessed.isSome then
    match (match filter_unprocessed with
      | some f => Except.map some (rewriteSpec m f)
      | none => Except.ok none) with
    | Except.error e => Except.error e
    | Except.ok fp =>
        match (match db_function_unprocessed with
          | some f => Except.map some (rewriteSpec m f)
          | none => Except.ok none) with
        | Except.error e => Except.error e
        | Except.ok dp => Except.ok ⟨fp, dp, true⟩
  else Except.ok ⟨none, none, false⟩

/-- The outcome of the record write delegated to the storage engine by
RecordViewSet.create: either the created record, or an integrity error whose
original error may or may not be a NotNullViolation, carrying the implicated
table and the storage message naming the column. -/
inductive WriteOutcome where
  | ok (record : Row)
  | integrityError (origIsNotNullViolation : Bool) (tableName : String)
      (message : String)

/-- The response of a record-create request. -/
inductive CreateResponse where
  | created (status : Nat) (record : Row)
  | notNullViolation (status : Nat) (tableName : String) (message : String)
  | genericError (status : Nat) (message : String)

/-- Embedding of RecordViewSet.create (records.py lines 87-103): a successful
write returns 201 with the record; an IntegrityError whose original error is a
NotNullViolation becomes a categorized not-null API error with status 400
carrying the implicated table and the storage message; any other
IntegrityError becomes a generic API error with status 400; the handler does
not interpret the violation further. -/
def RecordViewSet_create : WriteOutcome → CreateResponse
  | WriteOutcome.ok r => CreateResponse.created 201 r
  | WriteOutcome.integrityError true tbl msg =>
      CreateResponse.notNullViolation 400 tbl msg
  | WriteOutcome.integrityError false _ msg =>
      CreateResponse.genericError 400 msg

/-- C1: for every paginated record-list request the count field is computed by
the independent count query, which reflects filter, function and deduplicate
but not the window: it is the same for every choice of the limit and offset
parameters and equals the number of rows satisfying the specification with no
window applied. -/
theorem count_independent_of_window (t : MTable)
    (lp1 op1 lp2 op2 : Option (Option Int)) (filter : Option Pred)
    (order_by : Row → Row → Bool) (group_by : Option GroupBy)
    (duplicate_only : Option (List Nat)) (db_function : Option Pred)
    (deduplicate : Bool) :
    (TableLimitOffsetPagination_paginate_queryset t lp1 op1 filter order_by
        group_by duplicate_only db_function deduplicate).1.count
      = (TableLimitOffsetPagination_paginate_queryset t lp2 op2 filter
        order_by group_by duplicate_only db_function deduplicate).1.count ∧
    (TableLimitOffsetPagination_paginate_queryset t lp1 op1 filter order_by
        group_by duplicate_only db_function deduplicate).1.count
      = sa_num_records t filter db_function deduplicate ∧
    sa_num_records t filter db_function deduplicate
      = (baseResultSet t filter db_function deduplicate).length :=
  ⟨rfl, rfl, rfl⟩

/-- C4: the parsed limit defaults to 50 when the parameter is absent and never
exceeds the ceiling 500; the parsed offset defaults to 0 when absent and never
goes below the floor 0; out-of-range parameter values yield in-range results
instead of errors; and the paginator state holds exactly these parsed
values. -/
theorem limit_offset_parsing_bounds (lp op : Option (Option Int)) (t : MTable)
    (filter : Option Pred) (order_by : Row → Row → Bool)
    (group_by : Option GroupBy) (duplicate_only : Option (List Nat))
    (db_function : Option Pred) (deduplicate : Bool) :
    (TableLimitOffsetPagination_paginate_queryset t lp op filter order_by
        group_by duplicate_only db_function deduplicate).1.limit
      = (get_limit lp).getD default_limit ∧
    (TableLimitOffsetPagination_paginate_queryset t lp op filter order_by
        group_by duplicate_only db_function deduplicate).1.offset
      = get_offset op ∧
    (lp = none → (get_limit lp).getD default_limit = 50) ∧
    1 ≤ (get_limit lp).getD default_limit ∧
    (get_limit lp).getD default_limit ≤ 500 ∧
    (∀ n : Int, lp = some (some n) → 1 ≤ n →
      (get_limit lp).getD default_limit = min n 500) ∧
    (op = none → get_offset op = 0) ∧
    0 ≤ get_offset op ∧
    (∀ n : Int, op = some (some n) → get_offset op = max n 0) := by
  refine ⟨rfl, rfl, ?_, ?_, ?_, ?_, ?_, ?_, ?_⟩
  · rintro rfl; rfl
  · rcases lp with _ | (_ | n)
    · decide
    · decide
    · simp only [get_limit, default_limit, max_limit]
      by_cases h : n ≤ 0
      · rw [if_pos h]; decide
      · rw [if_neg h]
        simp only [Option.getD_some]
        omega
  · rcases lp with _ | (_ | n)
    · decide
    · decide
    · simp only [get_limit, default_limit, max_limit]
      by_cases h : n ≤ 0
      · rw [if_pos h]; decide
      · rw [if_neg h]
        simp only [Option.getD_some]
        omega
  · rintro n rfl h1
    simp only [get_limit, default_limit, max_limit]
    rw [if_neg (by omega)]
    simp
  · rintro rfl; rfl
  · rcases op with _ | (_ | n)
    · decide
    · decide
    · simp only [get_offset]
      by_cases h : n < 0
      · rw [if_pos h]
      · rw [if_neg h]; omega
  · rintro n rfl
    simp only [get_offset]
    by_cases h : n < 0
    · rw [if_pos h, max_eq_right (le_of_lt h)]
    · rw [if_neg h, max_eq_left (not_lt.mp h)]

/-- Witness for C4 at absent limit and offset parameters. -/
theorem limit_offset_parsing_bounds_witness :
    (get_limit none).getD default_limit = 50 ∧ get_offset none = 0 := by
  have h := limit_offset_parsing_bounds none none ⟨[]⟩ none (fun _ _ => true)
    none none none false
  exact ⟨h.2.2.1 rfl, h.2.2.2.2.2.2.1 rfl⟩

/-- C8: a record-create whose write fails with a NotNullViolation-class
integrity error is surfaced as a categorized not-null-violation error with
status 400 carrying the implicated table and the storage message naming the
column; any other integrity error becomes a generic 400 error; a successful
write returns 201 with the record. -/
theorem create_not_null_violation_dispatch (tbl msg : String) (r : Row) :
    RecordViewSet_create (WriteOutcome.integrityError true tbl msg)
      = CreateResponse.notNullViolation 400 tbl msg ∧
    RecordViewSet_create (WriteOutcome.integrityError false tbl msg)
      = CreateResponse.genericError 400 msg ∧
    RecordViewSet_create (WriteOutcome.ok r) = CreateResponse.created 201 r :=
  ⟨rfl, rfl, rfl⟩

/-- C9: the total count ignores the duplicate_only restriction — it is
computed from filter, function and deduplicate only, while the windowed
retrieval additionally applies duplicate_only — and on a concrete table with
one unduplicated row the reported count (3) exceeds the number of rows
retrievable across all windows (2). -/
theorem count_ignores_duplicate_only :
    (∀ (t : MTable) (lp op : Option (Option Int)) (filter : Option Pred)
      (order_by : Row → Row → Bool) (group_by : Option GroupBy)
      (duplicate_only : Option (List Nat)) (db_function : Option Pred)
      (deduplicate : Bool),
      (TableLimitOffsetPagination_paginate_queryset t lp op filter order_by
          group_by duplicate_only db_function deduplicate).1.count
        = (TableLimitOffsetPagination_paginate_queryset t lp op filter
          order_by group_by none db_function deduplicate).1.count) ∧
    (∀ (t : MTable) (limit offset : Nat) (filter : Option Pred)
      (order_by : Row → Row → Bool) (group_by : Option GroupBy)
      (duplicate_only : Option (List Nat)) (db_function : Option Pred)
      (deduplicate : Bool),
      get_records t limit offset filter order_by group_by duplicate_only
          db_function deduplicate
        = ((retrievableRows t filter order_by duplicate_only db_function
            deduplicate).drop offset).take limit) ∧
    (TableLimitOffsetPagination_paginate_queryset ⟨[["a"], ["b"], ["b"]]⟩ none
        none none (fun _ _ => true) none (some [0]) none false).1.count = 3 ∧
    (retrievableRows ⟨[["a"], ["b"], ["b"]]⟩ none (fun _ _ => true) (some [0])
        none false).length = 2 := by
  refine ⟨fun _ _ _ _ _ _ _ _ _ => rfl, fun _ _ _ _ _ _ _ _ _ => rfl, rfl, ?_⟩
  decide

/-- C3 counterexample: a filter-family validation error (an unknown operator
id) is surfaced by the record-list handler tagged with field "filters", which
is not the parameter name "filter" stated by the claim. -/
theorem filter_error_tag_cex :
    record_list (Except.error SpecError.unknownDBFunctionID)
      = Except.error ⟨"filters", 400⟩ ∧ ("filters" : String) ≠ "filter" :=
  ⟨rfl, by decide⟩

/-- C3 amended: every invalid specification surfaces exactly one categorized
400 error: filter-family errors are tagged "filters" (not "filter"),
sort-family errors "order_by", grouping-family errors "grouping"; a valid
pipeline outcome passes through unchanged. -/
theorem error_categorization_tags (e : SpecError) :
    record_list (Except.error e) = Except.error (categorize_list_error e) ∧
    (categorize_list_error e).status = 400 ∧
    (e = SpecError.badDBFunctionFormat ∨ e = SpecError.unknownDBFunctionID ∨
        e = SpecError.referencedColumnsDontExist →
      (categorize_list_error e).field = "filters") ∧
    (e = SpecError.badSortFormat ∨ e = SpecError.sortFieldNotFound →
      (categorize_list_error e).field = "order_by") ∧
    (e = SpecError.badGroupFormat ∨ e = SpecError.groupFieldNotFound ∨
        e = SpecError.invalidGroupType →
      (categorize_list_error e).field = "grouping") ∧
    (∀ page, record_list (Except.ok page) = Except.ok page) := by
  cases e <;> simp [categorize_list_error, record_list]

/-- Witness for C3 amended at a sort-family error. -/
theorem error_categorization_tags_witness :
    (categorize_list_error SpecError.badSortFormat).field = "order_by" ∧
    (categorize_list_error SpecError.badSortFormat).status = 400 :=
  ⟨(error_categorization_tags SpecError.badSortFormat).2.2.2.1 (Or.inl rfl),
   (error_categorization_tags SpecError.badSortFormat).2.1⟩

/-- C5: the column-identifier rewriting pass runs exactly when a filter
specification or a standalone function specification is supplied: with neither
supplied no rewriting and no mapping lookup happens and both processed specs
are absent; each supplied spec is rewritten independently against the same
mapping. -/
theorem rewrite_specs_invocation (m : List (Nat × String))
    (fu dbu : Option DBFunc) :
    (fu = none → dbu = none →
      rewrite_db_function_specs m fu dbu
        = Except.ok ⟨none, none, false⟩) ∧
    (∀ out, rewrite_db_function_specs m fu dbu = Except.ok out →
      out.filter_processed = fu.bind (fun f => (rewriteSpec m f).toOption) ∧
      out.db_function_processed
        = dbu.bind (fun f => (rewriteSpec m f).toOption) ∧
      out.mapping_lookup_performed = (fu.isSome || dbu.isSome)) := by
  constructor
  · rintro rfl rfl
    rfl
  · intro out h
    rcases fu with _ | f <;> rcases dbu with _ | g
    · rw [rewrite_db_function_specs] at h
      simp only [Option.isSome_none, Bool.or_self, Bool.false_eq_true,
        if_false, Except.ok.injEq] at h
      subst h
      exact ⟨rfl, rfl, rfl⟩
    · rw [rewrite_db_function_specs] at h
      simp only [Option.isSome_none, Option.isSome_some, Bool.false_or,
        if_true] at h
      rcases hg : rewriteSpec m g with eg | g2 <;> rw [hg] at h
      · simp [Except.map] at h
      · simp only [Except.map, Except.ok.injEq] at h
        subst h
        simp [Option.bind, hg, Except.toOption]
    · rw [rewrite_db_function_specs] at h
      simp only [Option.isSome_none, Option.isSome_some, Bool.or_false,
        if_true] at h
      rcases hf : rewriteSpec m f with ef | f2 <;> rw [hf] at h
      · simp [Except.map] at h
      · simp only [Except.map, Except.ok.injEq] at h
        subst h
        simp [Option.bind, hf, Except.toOption]
    · rw [rewrite_db_function_specs] at h
      simp only [Option.isSome_some, Bool.or_self, if_true] at h
      rcases hf : rewriteSpec m f with ef | f2 <;> rw [hf] at h
      · simp [Except.map] at h
      · rcases hg : rewriteSpec m g with eg | g2 <;> rw [hg] at h
        · simp [Except.map] at h
        · simp only [Except.map, Except.ok.injEq] at h
          subst h
          simp [Option.bind, hf, hg, Except.toOption]

/-- Witness for C5 at a supplied filter spec referencing column id 1 under the
mapping sending 1 to Center. -/
theorem rewrite_specs_invocation_witness :
    RewriteOut.filter_processed
        ⟨some (DBFunc.columnName "Center"), none, true⟩
      = (some (DBFunc.columnId 1)).bind
        (fun f => (rewriteSpec [(1, "Center")] f).toOption) ∧
    RewriteOut.mapping_lookup_performed
        ⟨some (DBFunc.columnName "Center"), none, true⟩
      = ((some (DBFunc.columnId 1)).isSome
        || (none : Option DBFunc).isSome) := by
  have hval : rewrite_db_function_specs [(1, "Center")]
      (some (DBFunc.columnId 1)) none
      = Except.ok ⟨some (DBFunc.columnName "Center"), none, true⟩ := by
    rw [rewrite_db_function_specs]
    simp [rewriteSpec, Except.map]
  have h := (rewrite_specs_invocation [(1, "Center")]
    (some (DBFunc.columnId 1)) none).2 _ hval
  exact ⟨h.1, h.2.2⟩

/-- C2 counterexample: with grouping requested over an empty table the window
is empty, yet the grouping metadata attached by the group paginator is a
grouping object carrying a null group list — not a null/absent metadata
value. -/
theorem grouping_meta_on_empty_window_cex :
    windowOf ⟨[]⟩ none none none (fun _ _ => true)
        (some ⟨[0], GroupMode.distinct, none⟩) none none false = [] ∧
    (TableLimitOffsetGroupPagination_paginate_queryset ⟨[]⟩ none none none
        (fun _ _ => true) (some ⟨[0], GroupMode.distinct, none⟩) none none
        false).grouping
      = some ⟨[0], GroupMode.distinct, none, false, none⟩ ∧
    some (⟨[0], GroupMode.distinct, none, false, none⟩ : GroupingMeta)
      ≠ (none : Option GroupingMeta) := by
  refine ⟨rfl, rfl, ?_⟩
  decide

/-- C2 amended: when grouping is requested and the window is empty, the group
paginator attaches a grouping object whose groups field is null (rather than
null/absent grouping metadata), and the grouping engine is not invoked. -/
theorem grouping_meta_groups_none_on_empty_window (t : MTable)
    (lp op : Option (Option Int)) (filter : Option Pred)
    (order_by : Row → Row → Bool) (gb : GroupBy)
    (duplicate_only : Option (List Nat)) (db_function : Option Pred)
    (deduplicate : Bool)
    (hempty : windowOf t lp op filter order_by (some gb) duplicate_only
      db_function deduplicate = []) :
    (TableLimitOffsetGroupPagination_paginate_queryset t lp op filter order_by
        (some gb) duplicate_only db_function deduplicate).grouping
      = some ⟨gb.columns, gb.mode, gb.num_groups, gb.ranged, none⟩ ∧
    (TableLimitOffsetGroupPagination_paginate_queryset t lp op filter order_by
        (some gb) duplicate_only db_function deduplicate).engine_input
      = none := by
  rw [windowOf] at hempty
  simp only [TableLimitOffsetGroupPagination_paginate_queryset]
  rw [hempty]
  exact ⟨rfl, rfl⟩

/-- Witness for C2 amended on an empty table with grouping requested. -/
theorem grouping_meta_groups_none_on_empty_window_witness :
    (TableLimitOffsetGroupPagination_paginate_queryset ⟨[]⟩ none none none
        (fun _ _ => true) (some ⟨[0], GroupMode.distinct, none⟩) none none
        false).grouping
      = some ⟨[0], GroupMode.distinct, none, false, none⟩ ∧
    (TableLimitOffsetGroupPagination_paginate_queryset ⟨[]⟩ none none none
        (fun _ _ => true) (some ⟨[0], GroupMode.distinct, none⟩) none none
        false).engine_input = none :=
  grouping_meta_groups_none_on_empty_window ⟨[]⟩ none none none
    (fun _ _ => true) ⟨[0], GroupMode.distinct, none⟩ none none false rfl

/-- C6: when grouping is requested and the window is non-empty, the grouping
engine is invoked on exactly the windowed record sequence produced by
limit/offset windowing — never on the full result set — so the attached group
results are a function of the page rows alone. -/
theorem grouping_engine_page_local (t : MTable) (lp op : Option (Option Int))
    (filter : Option Pred) (order_by : Row → Row → Bool) (gb : GroupBy)
    (duplicate_only : Option (List Nat)) (db_function : Option Pred)
    (deduplicate : Bool)
    (hne : windowOf t lp op filter order_by (some gb) duplicate_only
      db_function deduplicate ≠ []) :
    (TableLimitOffsetGroupPagination_paginate_queryset t lp op filter order_by
        (some gb) duplicate_only db_function deduplicate).engine_input
      = some (windowOf t lp op filter order_by (some gb) duplicate_only
        db_function deduplicate) ∧
    (TableLimitOffsetGroupPagination_paginate_queryset t lp op filter order_by
        (some gb) duplicate_only db_function deduplicate).grouping
      = some ⟨gb.columns, gb.mode, gb.num_groups, gb.ranged,
        some (groupEngine gb (windowOf t lp op filter order_by (some gb)
          duplicate_only db_function deduplicate))⟩ ∧
    windowOf t lp op filter order_by (some gb) duplicate_only db_function
        deduplicate
      = ((retrievableRows t filter order_by duplicate_only db_function
          deduplicate).drop (get_offset op).toNat).take
        ((get_limit lp).getD default_limit).toNat := by
  refine ⟨?_, ?_, rfl⟩ <;>
    · rcases hW : windowOf t lp op filter order_by (some gb) duplicate_only
        db_function deduplicate with _ | ⟨r, rs⟩
      · exact absurd hW hne
      · rw [windowOf] at hW
        simp only [TableLimitOffsetGroupPagination_paginate_queryset]
        rw [hW]
        rfl

/-- Witness for C6 on a one-row table with distinct grouping requested. -/
theorem grouping_engine_page_local_witness :
    windowOf ⟨[["x"]]⟩ none none none (fun _ _ => true)
        (some ⟨[0], GroupMode.distinct, none⟩) none none false ≠ [] ∧
    (TableLimitOffsetGroupPagination_paginate_queryset ⟨[["x"]]⟩ none none
        none (fun _ _ => true) (some ⟨[0], GroupMode.distinct, none⟩) none
        none false).engine_input
      = some (windowOf ⟨[["x"]]⟩ none none none (fun _ _ => true)
        (some ⟨[0], GroupMode.distinct, none⟩) none none false) :=
  ⟨by decide, (grouping_engine_page_local ⟨[["x"]]⟩ none none none
    (fun _ _ => true) ⟨[0], GroupMode.distinct, none⟩ none none false
    (by decide)).1⟩

/-- C10: whenever the windowed row sequence is empty, the grouping paginator
returns an absent record list (none) rather than an empty sequence, skipping
the record post-processing entirely, whether or not grouping was requested. -/
theorem empty_window_returns_none (t : MTable) (lp op : Option (Option Int))
    (filter : Option Pred) (order_by : Row → Row → Bool)
    (grouping : Option GroupBy) (duplicate_only : Option (List Nat))
    (db_function : Option Pred) (deduplicate : Bool)
    (hempty : windowOf t lp op filter order_by grouping duplicate_only
      db_function deduplicate = []) :
    (TableLimitOffsetGroupPagination_paginate_queryset t lp op filter order_by
        grouping duplicate_only db_function deduplicate).records = none ∧
    (TableLimitOffsetGroupPagination_paginate_queryset t lp op filter order_by
        grouping duplicate_only db_function deduplicate).engine_input
      = none := by
  rw [windowOf] at hempty
  simp only [TableLimitOffsetGroupPagination_paginate_queryset]
  rw [hempty]
  exact ⟨rfl, rfl⟩

/-- Witness for C10 on an empty table without grouping. -/
theorem empty_window_returns_none_witness :
    (TableLimitOffsetGroupPagination_paginate_queryset ⟨[]⟩ none none none
        (fun _ _ => true) none none none false).records = none ∧
    (TableLimitOffsetGroupPagination_paginate_queryset ⟨[]⟩ none none none
        (fun _ _ => true) none none none false).engine_input = none :=
  empty_window_returns_none ⟨[]⟩ none none none (fun _ _ => true) none none
    none false rfl

/-- C7: for any page grouped in distinct mode (the claim's non-empty case in
particular), the groups partition the page positions: every position below the
page size lies in exactly one group's result_indices, every listed index is in
range, indices within each group are strictly ascending, every group is
non-empty, two positions lie in a common group exactly when their value tuples
on the grouped columns are equal, and groups are emitted in the order their
first member appears in the page. -/
theorem distinct_groups_partition (rows : List Row) (cols : List Nat)
    (hrows : rows ≠ []) :
    (∀ i, i < rows.length →
      (distinctGroups cols rows).countP
        (fun g => decide (i ∈ g.result_indices)) = 1) ∧
    (∀ g ∈ distinctGroups cols rows, ∀ i ∈ g.result_indices,
      i < rows.length) ∧
    (∀ g ∈ distinctGroups cols rows, g.result_indices.Pairwise (· < ·)) ∧
    (∀ g ∈ distinctGroups cols rows, g.result_indices ≠ []) ∧
    (∀ g ∈ distinctGroups cols rows, ∀ i ∈ g.result_indices,
      ∀ j ∈ g.result_indices,
      tupleOn cols (rows.getD i []) = tupleOn cols (rows.getD j [])) ∧
    (∀ i j, i < rows.length → j < rows.length →
      tupleOn cols (rows.getD i []) = tupleOn cols (rows.getD j []) →
      ∀ g ∈ distinctGroups cols rows,
        (i ∈ g.result_indices ↔ j ∈ g.result_indices)) ∧
    (distinctGroups cols rows).Pairwise
      (fun g1 g2 => g1.result_indices.headD 0 < g2.result_indices.headD 0) := by
  have hlen : (keysOf cols rows).length = rows.length := length_keysOf cols rows
  refine ⟨?_, ?_, ?_, ?_, ?_, ?_, ?_⟩
  · intro i hi
    have hi2 : i < (keysOf cols rows).length := by rw [hlen]; exact hi
    rw [distinctGroups, List.countP_map]
    have hc : (dedupFirst (keysOf cols rows)).countP
        ((fun g : GroupResult => decide (i ∈ g.result_indices)) ∘
          (fun k => (⟨(groupIndices (keysOf cols rows) k).length, k, k,
            groupIndices (keysOf cols rows) k⟩ : GroupResult)))
        = (dedupFirst (keysOf cols rows)).countP
          (fun k => decide ((keysOf cols rows).getD i [] = k)) := by
      refine List.countP_congr ?_
      intro k hk
      simp only [Function.comp, decide_eq_true_eq]
      rw [mem_groupIndices]
      constructor
      · intro h
        exact h.2
      · intro h
        exact ⟨hi2, h⟩
    rw [hc]
    refine countP_eq_one_of_nodup (nodup_dedupFirst _) ?_
    rw [mem_dedupFirst]
    rw [List.getD_eq_getElem _ _ hi2]
    exact List.getElem_mem hi2
  · intro g hg i hig
    rw [distinctGroups] at hg
    rcases List.mem_map.mp hg with ⟨k, hk, rfl⟩
    have h := (mem_groupIndices.mp hig).1
    rwa [hlen] at h
  · intro g hg
    rw [distinctGroups] at hg
    rcases List.mem_map.mp hg with ⟨k, hk, rfl⟩
    exact pairwise_lt_groupIndices _ _
  · intro g hg
    rw [distinctGroups] at hg
    rcases List.mem_map.mp hg with ⟨k, hk, rfl⟩
    have hkks : k ∈ keysOf cols rows := (mem_dedupFirst _ _).mp hk
    have hfi : firstIdx k (keysOf cols rows) ∈ groupIndices (keysOf cols rows) k :=
      mem_groupIndices.mpr ⟨firstIdx_lt_length hkks, getD_firstIdx hkks []⟩
    exact List.ne_nil_of_mem hfi
  · intro g hg i hig j hjg
    rw [distinctGroups] at hg
    rcases List.mem_map.mp hg with ⟨k, hk, rfl⟩
    obtain ⟨hi, hik⟩ := mem_groupIndices.mp hig
    obtain ⟨hj, hjk⟩ := mem_groupIndices.mp hjg
    rw [← getD_keysOf (hlen ▸ hi), ← getD_keysOf (hlen ▸ hj), hik, hjk]
  · intro i j hi hj htup g hg
    rw [distinctGroups] at hg
    rcases List.mem_map.mp hg with ⟨k, hk, rfl⟩
    have hkey : (keysOf cols rows).getD i [] = (keysOf cols rows).getD j [] := by
      rw [getD_keysOf hi, getD_keysOf hj]
      exact htup
    constructor
    · intro h
      obtain ⟨_, hik⟩ := mem_groupIndices.mp h
      exact mem_groupIndices.mpr ⟨by rw [hlen]; exact hj, by rw [← hkey]; exact hik⟩
    · intro h
      obtain ⟨_, hjk⟩ := mem_groupIndices.mp h
      exact mem_groupIndices.mpr ⟨by rw [hlen]; exact hi, by rw [hkey]; exact hjk⟩
  · rw [distinctGroups, List.pairwise_map]
    refine (pairwise_firstIdx_dedupFirst (keysOf cols rows)).imp_of_mem ?_
    intro k1 k2 hk1 hk2 hlt
    have h1 := (mem_dedupFirst _ _).mp hk1
    have h2 := (mem_dedupFirst _ _).mp hk2
    show (groupIndices (keysOf cols rows) k1).headD 0
      < (groupIndices (keysOf cols rows) k2).headD 0
    rw [headD_groupIndices h1, headD_groupIndices h2]
    exact hlt

/-- Witness for C7 on the spec's worked example: rows with Center values
Kennedy, Ames, Ames grouped distinctly on column 0 — page position 0 lies in
exactly one group. -/
theorem distinct_groups_partition_witness :
    ([["Kennedy"], ["Ames"], ["Ames"]] : List Row) ≠ [] ∧
    (distinctGroups [0] [["Kennedy"], ["Ames"], ["Ames"]]).countP
      (fun g => decide (0 ∈ g.result_indices)) = 1 :=
  ⟨by decide,
   (distinct_groups_partition [["Kennedy"], ["Ames"], ["Ames"]] [0]
      (by decide)).1 0 (by decide)⟩

end MathesarSpec
